import Mathlib

/-!
Verification of the competitive brand-audit pipeline (heyitselan/brand-audit).

The repository ships three JavaScript translation units inside
src/netlify/functions/competitors.js:
  (A) the netlify suggest-competitors function   (lines 1-99),
  (B) the netlify audit function                 (lines 100-388),
  (C) the Express server (server.js style)       (lines 389-1059).

This file is a shallow embedding of the deterministic parts of that code
(URL normalization, fetch fallback logic, structured-content extraction,
the find-first-JSON-object reply parsing, chart assembly, and the audit
orchestration control flow).  The LLM, the HTTP transport and JSON.parse
results are modeled as oracles/inputs; JavaScript strings are modeled as
Lean character lists (code-unit versus character differences are outside
the claims considered here).  All scanners are written with explicit fuel
(always instantiated with at least the length of the input plus one, which
is enough since every step consumes at least one character), so that every
definition reduces in the kernel.
-/

namespace BrandAudit

/-- Double-quote character (") used by the HTML/CSS scanners. -/
def dq : Char := Char.ofNat 34

/-- Single-quote character used by the HTML/CSS scanners. -/
def sq : Char := Char.ofNat 39

/-- Left curly brace character. -/
def lbrace : Char := Char.ofNat 123

/-- Right curly brace character. -/
def rbrace : Char := Char.ofNat 125

/-- Whitespace class of JavaScript regex \s and String.prototype.trim,
restricted to ASCII (space, tab, line feed, carriage return, vertical tab,
form feed).  Unicode space characters are outside the inputs considered. -/
def jsWs (c : Char) : Bool :=
  c == ' ' || c == '\t' || c == '\n' || c == '\r' || c == Char.ofNat 11 || c == Char.ofNat 12

/-- JavaScript String.prototype.trim on character lists. -/
def jsTrim (l : List Char) : List Char :=
  ((l.dropWhile jsWs).reverse.dropWhile jsWs).reverse

/-- JavaScript String.prototype.trim on strings. -/
def jsTrimS (s : String) : String :=
  String.mk (jsTrim s.data)

/-- Case-sensitive prefix test on character lists. -/
def isPrefixList : List Char → List Char → Bool
  | [], _ => true
  | _ :: _, [] => false
  | p :: ps, c :: cs => p == c && isPrefixList ps cs

/-- Case-insensitive (ASCII) prefix test on character lists; regex /i
semantics for the ASCII letters appearing in the patterns of the source. -/
def isPrefixListCI : List Char → List Char → Bool
  | [], _ => true
  | _ :: _, [] => false
  | p :: ps, c :: cs => p.toLower == c.toLower && isPrefixListCI ps cs

/-- Split a character list at the first (case-sensitive) occurrence of a
pattern, returning the part before the occurrence and the part after it.
Models String.prototype.indexOf / the first match of a literal regex. -/
def findSplit (pat : List Char) : List Char → Option (List Char × List Char)
  | [] => if pat.isEmpty then some ([], []) else none
  | c :: rest =>
    if isPrefixList pat (c :: rest) then some ([], (c :: rest).drop pat.length)
    else
      match findSplit pat rest with
      | some (pre, post) => some (c :: pre, post)
      | none => none

/-- Split a character list at the first case-insensitive occurrence of a
pattern. -/
def findSplitCI (pat : List Char) : List Char → Option (List Char × List Char)
  | [] => if pat.isEmpty then some ([], []) else none
  | c :: rest =>
    if isPrefixListCI pat (c :: rest) then some ([], (c :: rest).drop pat.length)
    else
      match findSplitCI pat rest with
      | some (pre, post) => some (c :: pre, post)
      | none => none

/-- String.prototype.includes (case-sensitive). -/
def containsSub (pat : List Char) (s : List Char) : Bool :=
  (findSplit pat s).isSome

/-- Case-insensitive substring test. -/
def containsSubCI (pat : List Char) (s : List Char) : Bool :=
  (findSplitCI pat s).isSome

/-- Split at the first occurrence of a single character, returning the part
before it and the part after it. -/
def splitAtChar (c : Char) : List Char → Option (List Char × List Char)
  | [] => none
  | d :: rest =>
    if d == c then some ([], rest)
    else
      match splitAtChar c rest with
      | some (pre, post) => some (d :: pre, post)
      | none => none

/-- JavaScript String.prototype.replace with a literal pattern (replaces the
first occurrence only; the string is returned unchanged when the pattern
does not occur). -/
def jsReplaceOnce (pat repl : List Char) (s : List Char) : List Char :=
  match findSplit pat s with
  | some (pre, post) => pre ++ repl ++ post
  | none => s

/-- JavaScript String.prototype.replace with a global literal regex: every
occurrence of the pattern is replaced, scanning left to right.  Fuel is
consumed one unit per character position. -/
def jsReplaceAllF (pat repl : List Char) : Nat → List Char → List Char
  | 0, l => l
  | _ + 1, [] => []
  | fuel + 1, c :: rest =>
    if isPrefixList pat (c :: rest) && !pat.isEmpty then
      repl ++ jsReplaceAllF pat repl fuel ((c :: rest).drop pat.length)
    else
      c :: jsReplaceAllF pat repl fuel rest

/-- JavaScript String.prototype.split on a single-character separator
(ECMAScript split: an empty input yields one empty piece). -/
def splitOnChar (sep : Char) : List Char → List (List Char)
  | [] => [[]]
  | c :: rest =>
    let r := splitOnChar sep rest
    if c == sep then [] :: r
    else
      match r with
      | h :: t => (c :: h) :: t
      | [] => [[c]]

/-- Replace every run of regex-\s whitespace by a single space
(models the global replace of whitespace runs by a single space).  The
flag records whether the previous
character was part of a whitespace run. -/
def collapseWsAux (prevWs : Bool) : List Char → List Char
  | [] => []
  | c :: rest =>
    if jsWs c then
      if prevWs then collapseWsAux true rest
      else ' ' :: collapseWsAux true rest
    else c :: collapseWsAux false rest

/-- Global replace of whitespace runs by a single space on a character
list. -/
def collapseWs (l : List Char) : List Char := collapseWsAux false l

/-- Insertion-order deduplication, as performed by [...new Set(xs)]. -/
def jsDedupAux (seen : List String) : List String → List String
  | [] => []
  | x :: xs => if x ∈ seen then jsDedupAux seen xs else x :: jsDedupAux (x :: seen) xs

/-- Spread of new Set(xs) on a list of strings. -/
def jsDedup (l : List String) : List String := jsDedupAux [] l

/-- JavaScript truthiness-based a || b on strings (the empty string is
falsy). -/
def jsOrS (a b : String) : String := if a = "" then b else a

/-! ## The find-first-JSON-object reply heuristic

Every inference stage extracts `text.match(/\{[\s\S]*\}/)`: the span from
the first left brace of the reply to the last right brace (the regex is
greedy), provided the last right brace comes after the first left brace. -/

/-- The span matched by the greedy regex from the first left brace to the
last right brace of the text, or none when no such span exists.
Models text.match of the brace regex used by every stage. -/
def jsonSpanL (s : List Char) : Option (List Char) :=
  let t := s.dropWhile (fun c => !(c == lbrace))
  let r := t.reverse.dropWhile (fun c => !(c == rbrace))
  if t.isEmpty then none
  else if r.isEmpty then none
  else some r.reverse

/-! ## JSON.parse success/failure

The stages feed the matched span to JSON.parse.  The claims concern only
whether parsing succeeds, not the parsed value, so the model validates the
span against the JSON grammar (ECMA-404, as accepted by JSON.parse) and
represents a successfully parsed value by its source span. -/

/-- JSON whitespace (the only whitespace JSON.parse skips). -/
def jsonWs (c : Char) : Bool :=
  c == ' ' || c == '\t' || c == '\n' || c == '\r'

/-- Drop leading JSON whitespace. -/
def skipJsonWs (s : List Char) : List Char := s.dropWhile jsonWs

/-- Hexadecimal digit value, if any. -/
def hexVal (c : Char) : Option Nat :=
  if c.toNat ≥ 48 && c.toNat ≤ 57 then some (c.toNat - 48)
  else if c.toNat ≥ 97 && c.toNat ≤ 102 then some (c.toNat - 87)
  else if c.toNat ≥ 65 && c.toNat ≤ 70 then some (c.toNat - 55)
  else none

/-- Consume the remainder of a JSON string literal (the opening quote has
already been consumed); returns the rest of the input on success. -/
def parseJsonStringRest : List Char → Option (List Char)
  | [] => none
  | c :: rest =>
    if c == dq then some rest
    else if c == '\\' then
      match rest with
      | [] => none
      | e :: rest2 =>
        if e == dq || e == '\\' || e == '/' || e == 'b' || e == 'f' ||
            e == 'n' || e == 'r' || e == 't' then
          parseJsonStringRest rest2
        else if e == 'u' then
          match rest2 with
          | a :: b :: c2 :: d :: rest3 =>
            if (hexVal a).isSome && (hexVal b).isSome && (hexVal c2).isSome && (hexVal d).isSome then
              parseJsonStringRest rest3
            else none
          | _ => none
        else none
    else if c.toNat < 32 then none
    else parseJsonStringRest rest

/-- Consume a JSON number starting at the head of the input. -/
def parseJsonNumber (s : List Char) : Option (List Char) :=
  let s1 := if isPrefixList ['-'] s then s.drop 1 else s
  match s1 with
  | [] => none
  | d :: r =>
    if d == '0' then
      parseJsonNumberFrac r
    else if d.isDigit then
      parseJsonNumberFrac (r.dropWhile Char.isDigit)
    else none
where
  /-- Optional fraction then optional exponent. -/
  parseJsonNumberFrac (s : List Char) : Option (List Char) :=
    let afterFrac : Option (List Char) :=
      if isPrefixList ['.'] s then
        match s.drop 1 with
        | d :: r => if d.isDigit then some (r.dropWhile Char.isDigit) else none
        | [] => none
      else some s
    match afterFrac with
    | none => none
    | some s2 =>
      if isPrefixList ['e'] s2 || isPrefixList ['E'] s2 then
        let s3 := s2.drop 1
        let s4 := if isPrefixList ['+'] s3 || isPrefixList ['-'] s3 then s3.drop 1 else s3
        match s4 with
        | d :: r => if d.isDigit then some (r.dropWhile Char.isDigit) else none
        | [] => none
      else some s2

/-- Parsing mode of the JSON grammar scanner: a whole value, the remainder
of an object after its opening brace, the member list of an object, the
remainder of an array after its opening bracket, or the element list of an
array.  A single mode-indexed function is used (instead of mutual
recursion) so that the scanner is structurally recursive on its fuel and
reduces in the kernel. -/
inductive JsonMode where
  | value
  | objRest
  | members
  | arrRest
  | elems

/-- Consume one JSON fragment according to the mode; returns the rest of
the input on success.  Fuel bounds the number of recursive calls; since at
least one character is consumed for every bounded number of calls, any
fuel of at least four times the input length plus eight suffices. -/
def parseJson : Nat → JsonMode → List Char → Option (List Char)
  | 0, _, _ => none
  | fuel + 1, JsonMode.value, s =>
    (match skipJsonWs s with
    | [] => none
    | c :: rest =>
      if c == 't' then
        if isPrefixList ['r', 'u', 'e'] rest then some (rest.drop 3) else none
      else if c == 'f' then
        if isPrefixList ['a', 'l', 's', 'e'] rest then some (rest.drop 4) else none
      else if c == 'n' then
        if isPrefixList ['u', 'l', 'l'] rest then some (rest.drop 3) else none
      else if c == dq then parseJsonStringRest rest
      else if c == '-' || c.isDigit then parseJsonNumber (c :: rest)
      else if c == lbrace then parseJson fuel JsonMode.objRest rest
      else if c == '[' then parseJson fuel JsonMode.arrRest rest
      else none)
  | fuel + 1, JsonMode.objRest, s =>
    (match skipJsonWs s with
    | [] => none
    | c :: rest =>
      if c == rbrace then some rest
      else parseJson fuel JsonMode.members (c :: rest))
  | fuel + 1, JsonMode.members, s =>
    (match skipJsonWs s with
    | [] => none
    | c :: rest =>
      if c == dq then
        match parseJsonStringRest rest with
        | none => none
        | some afterKey =>
          match skipJsonWs afterKey with
          | [] => none
          | c2 :: rest2 =>
            if c2 == ':' then
              match parseJson fuel JsonMode.value rest2 with
              | none => none
              | some afterVal =>
                match skipJsonWs afterVal with
                | [] => none
                | c3 :: rest3 =>
                  if c3 == ',' then parseJson fuel JsonMode.members rest3
                  else if c3 == rbrace then some rest3
                  else none
            else none
      else none)
  | fuel + 1, JsonMode.arrRest, s =>
    (match skipJsonWs s with
    | [] => none
    | c :: rest =>
      if c == ']' then some rest
      else parseJson fuel JsonMode.elems (c :: rest))
  | fuel + 1, JsonMode.elems, s =>
    (match parseJson fuel JsonMode.value s with
    | none => none
    | some afterVal =>
      match skipJsonWs afterVal with
      | [] => none
      | c :: rest =>
        if c == ',' then parseJson fuel JsonMode.elems rest
        else if c == ']' then some rest
        else none)

/-- Whether JSON.parse accepts the given text (the whole text must be one
JSON value, possibly surrounded by JSON whitespace). -/
def jsonValid (s : List Char) : Bool :=
  match parseJson (4 * s.length + 8) JsonMode.value s with
  | some rest => (skipJsonWs rest).isEmpty
  | none => false

/-! ## Reply blocks and the stage parse loops

An LLM reply is a list of content blocks; every stage iterates over the
blocks, skipping non-text blocks, and processes the first text block whose
text contains a brace span. -/

/-- One content block of an LLM reply. -/
inductive ContentBlock where
  | text (s : String)
  | other
deriving DecidableEq

/-- The first brace span found while iterating over the reply blocks in
order (skipping non-text blocks and text blocks without a span.)  This is
the span every parse loop of the source acts on first. -/
def firstJsonSpan : List ContentBlock → Option (List Char)
  | [] => none
  | ContentBlock.text s :: rest =>
    match jsonSpanL s.data with
    | some sp => some sp
    | none => firstJsonSpan rest
  | ContentBlock.other :: rest => firstJsonSpan rest

/-- The parse loop shared by the netlify audit stage functions
extractMessaging (lines 181-188), analyzeFirstImpressions (lines 214-221)
and generateTakeaways (lines 249-256): the first brace span found is fed
to JSON.parse with no try/catch, so an invalid span makes the stage
function throw (modeled as Except.error); a reply with no span yields
null.  A parsed value is represented by its source span. -/
def netlifyStageParse : List ContentBlock → Except Unit (Option (List Char))
  | [] => Except.ok none
  | ContentBlock.text s :: rest =>
    match jsonSpanL s.data with
    | some sp => if jsonValid sp then Except.ok (some sp) else Except.error ()
    | none => netlifyStageParse rest
  | ContentBlock.other :: rest => netlifyStageParse rest

/-- The parse loop shared by the server stage functions extractMessaging
(lines 582-594), analyzeFirstImpressions (lines 647-659), generateTakeaways
(lines 698-711) and extractVisuals (lines 753-765): JSON.parse runs inside
a try/catch, so an invalid span is logged and the loop continues with the
next block; exhaustion yields null.  The Except layer is kept to state
that this loop never throws. -/
def serverStageParse : List ContentBlock → Except Unit (Option (List Char))
  | [] => Except.ok none
  | ContentBlock.text s :: rest =>
    match jsonSpanL s.data with
    | some sp => if jsonValid sp then Except.ok (some sp) else serverStageParse rest
    | none => serverStageParse rest
  | ContentBlock.other :: rest => serverStageParse rest

/-! ## The netlify suggest-competitors reply handling (lines 82-95)

The handler returns the first brace span verbatim as the 200 response body
without calling JSON.parse on it; when no text block contains a span it
returns 200 with JSON.stringify of an empty competitors object. -/

/-- An HTTP response of the suggest-competitors function. -/
structure SuggestResponse where
  status : Nat
  body : String
deriving DecidableEq

/-- JSON.stringify of the empty competitors object (no spaces). -/
def emptyCompetitorsBody : String :=
  String.mk (lbrace :: ("\"competitors\":[]".data ++ [rbrace]))

/-- Reply handling of the netlify suggest-competitors handler, lines 82-95:
the first brace span of a text block is returned verbatim with status 200;
otherwise status 200 with the stringified empty competitors object. -/
def suggestHandlerRespond (blocks : List ContentBlock) : SuggestResponse :=
  match firstJsonSpan blocks with
  | some sp => ⟨200, String.mk sp⟩
  | none => ⟨200, emptyCompetitorsBody⟩

/-! ## URL normalization and the website fetcher

normalizeUrl appears identically in all three translation units (lines
7-13, 107-113, 414-421).  fetchWebsite exists in a netlify variant (lines
15-29 and 116-130, identical) and a server variant (lines 473-495); the
transport (global fetch plus response.text()) is modeled by an oracle that
returns the body text on success and none when a transport-level exception
is thrown.  A fetcher run is modeled as the list of URLs requested, in
order, together with the resolved value. -/

/-- String.prototype.startsWith. -/
def strStartsWith (p s : String) : Bool := isPrefixList p.data s.data

/-- normalizeUrl (lines 7-13, 107-113, 414-421): trim, then prepend
https:// when neither http:// nor https:// is a prefix. -/
def normalizeUrl (url : String) : String :=
  let t := jsTrimS url
  if !(strStartsWith "http://" t) && !(strStartsWith "https://" t) then "https://" ++ t
  else t

/-- url.replace of the first occurrence of :// by ://www. . -/
def wwwVariant (url : String) : String :=
  String.mk (jsReplaceOnce "://".data "://www.".data url.data)

/-- fetchWebsite of the netlify functions (lines 15-29, 116-130): fetch the
normalized URL; on a transport exception fetch the www variant; on a
second exception resolve to null.  Returns the requested URLs in order and
the resolved value. -/
def fetchWebsiteNetlify (oracle : String → Option String) (url : String) :
    List String × Option String :=
  let u := normalizeUrl url
  match oracle u with
  | some t => ([u], some t)
  | none =>
    let w := wwwVariant u
    ([u, w], oracle w)

/-- fetchWebsite of the server (lines 473-495): like the netlify variant,
except that when the normalized URL already contains ://www. no second
request is made and the fetcher resolves to null directly. -/
def fetchWebsiteServer (oracle : String → Option String) (url : String) :
    List String × Option String :=
  let u := normalizeUrl url
  match oracle u with
  | some t => ([u], some t)
  | none =>
    if containsSub "://www.".data u.data then ([u], none)
    else
      let w := wwwVariant u
      ([u, w], oracle w)

/-! ## Structured content extraction

Regex-based scanners, translated pattern by pattern.  Each scanner takes
fuel instantiated with the input length plus one.  Where the source regex
relies on greedy backtracking across several occurrences of an inner
literal (the meta-description and p-class patterns), the model commits to
the first occurrence; the claims under verification do not exercise those
corner cases. -/

/-- Matches /<tag[^>]*>([inner lazily])<\/tag>/i at the earliest start
position where the whole pattern can match: from an occurrence of <tag,
skip to the first following right angle bracket, then capture lazily up to
the first following closing tag; when the pattern cannot complete at one
occurrence, scanning resumes one character later. -/
def findElemInner (tag : List Char) : Nat → List Char → Option (List Char)
  | 0, _ => none
  | _ + 1, [] => none
  | fuel + 1, c :: rest =>
    if isPrefixListCI ('<' :: tag) (c :: rest) then
      match splitAtChar '>' ((c :: rest).drop (tag.length + 1)) with
      | some (_, afterGt) =>
        match findSplitCI ('<' :: '/' :: (tag ++ ['>'])) afterGt with
        | some (inner, _) => some inner
        | none => findElemInner tag fuel rest
      | none => findElemInner tag fuel rest
    else findElemInner tag fuel rest

/-- First match of the element-content regex for a tag name. -/
def matchTagInner (tag : String) (html : List Char) : Option (List Char) :=
  findElemInner tag.data (html.length + 1) html

/-- Global tag-strip replace (regex: left angle bracket, one or more
non-right-angle characters, right angle bracket): each left angle bracket
followed by at least
one non-right-angle character and a right angle bracket is replaced by
rep; an unclosed or immediately closed bracket is kept literally. -/
def stripTagsF (rep : List Char) : Nat → List Char → List Char
  | 0, l => l
  | _ + 1, [] => []
  | fuel + 1, c :: rest =>
    if c == '<' then
      match splitAtChar '>' rest with
      | some (before, after) =>
        if before.isEmpty then c :: stripTagsF rep fuel rest
        else rep ++ stripTagsF rep fuel after
      | none => c :: stripTagsF rep fuel rest
    else c :: stripTagsF rep fuel rest

/-- Tag stripping with the given replacement. -/
def stripTags (rep : List Char) (l : List Char) : List Char :=
  stripTagsF rep (l.length + 1) l

/-- ASCII word character (regex \w), for the \b boundary after the tag
name in the script/style block regexes. -/
def isWordChar (c : Char) : Bool := c.isAlpha || c.isDigit || c == '_'

/-- Global removal of complete element blocks of a tag (the classic
script-block regex of the source, case-insensitive): every span
from <tag (followed by a word boundary) through the first subsequent
closing tag is removed; an occurrence with no subsequent closing tag is
left in place. -/
def removeBlocksF (tag : List Char) : Nat → List Char → List Char
  | 0, l => l
  | _ + 1, [] => []
  | fuel + 1, c :: rest =>
    if isPrefixListCI ('<' :: tag) (c :: rest) then
      let afterName := (c :: rest).drop (tag.length + 1)
      let boundary :=
        match afterName with
        | [] => true
        | d :: _ => !(isWordChar d)
      if boundary then
        match findSplitCI ('<' :: '/' :: (tag ++ ['>'])) afterName with
        | some (_, after) => removeBlocksF tag fuel after
        | none => c :: removeBlocksF tag fuel rest
      else c :: removeBlocksF tag fuel rest
    else c :: removeBlocksF tag fuel rest

/-- Remove every complete element block of the given tag. -/
def removeElemBlocks (tag : String) (l : List Char) : List Char :=
  removeBlocksF tag.data (l.length + 1) l

/-- Either quote character. -/
def isQuote (c : Char) : Bool := c == dq || c == sq

/-- Completion of the name-then-content meta-description regex after an
occurrence of <meta: within the span before the next right angle bracket,
find name= followed by a quoted description, then content= followed by a
quote and a nonempty capture of non-quote characters terminated by a
quote. -/
def tryMetaNameContent (s : List Char) : Option (List Char) :=
  match findSplitCI "name=".data s with
  | none => none
  | some (pre, afterName) =>
    if pre.contains '>' then none
    else
      match afterName with
      | [] => none
      | q1 :: afterQ1 =>
        if isQuote q1 && isPrefixListCI "description".data afterQ1 then
          match afterQ1.drop 11 with
          | [] => none
          | q2 :: afterQ2 =>
            if isQuote q2 then
              match findSplitCI "content=".data afterQ2 with
              | none => none
              | some (pre2, afterContent) =>
                if pre2.contains '>' then none
                else
                  match afterContent with
                  | [] => none
                  | q3 :: afterQ3 =>
                    if isQuote q3 then
                      let cap := afterQ3.takeWhile (fun d => !(isQuote d))
                      if cap.isEmpty then none
                      else if (afterQ3.drop cap.length).isEmpty then none
                      else some cap
                    else none
            else none
        else none

/-- Completion of the content-then-name meta-description regex after an
occurrence of <meta. -/
def tryMetaContentName (s : List Char) : Option (List Char) :=
  match findSplitCI "content=".data s with
  | none => none
  | some (pre, afterContent) =>
    if pre.contains '>' then none
    else
      match afterContent with
      | [] => none
      | q1 :: afterQ1 =>
        if isQuote q1 then
          let cap := afterQ1.takeWhile (fun d => !(isQuote d))
          if cap.isEmpty then none
          else
            match afterQ1.drop cap.length with
            | [] => none
            | _q2 :: afterQ2 =>
              match findSplitCI "name=".data afterQ2 with
              | none => none
              | some (pre2, afterName) =>
                if pre2.contains '>' then none
                else
                  match afterName with
                  | [] => none
                  | q3 :: afterQ3 =>
                    if isQuote q3 && isPrefixListCI "description".data afterQ3 then
                      match afterQ3.drop 11 with
                      | [] => none
                      | q4 :: _ => if isQuote q4 then some cap else none
                    else none
        else none

/-- Scan for the first <meta occurrence at which the given completion
succeeds. -/
def scanMeta (completion : List Char → Option (List Char)) :
    Nat → List Char → Option (List Char)
  | 0, _ => none
  | _ + 1, [] => none
  | fuel + 1, c :: rest =>
    if isPrefixListCI "<meta".data (c :: rest) then
      match completion ((c :: rest).drop 5) with
      | some cap => some cap
      | none => scanMeta completion fuel rest
    else scanMeta completion fuel rest

/-- The captured meta description: the name-then-content regex, or else
the content-then-name regex (the source ors the two match results). -/
def metaDescCapture (d : List Char) : Option (List Char) :=
  match scanMeta tryMetaNameContent (d.length + 1) d with
  | some cap => some cap
  | none => scanMeta tryMetaContentName (d.length + 1) d

/-- The p-class subheadline fallback of the server extractor (line 518):
/<p[^>]*class="[^"]*(?:hero|subtitle|lead|intro)[^"]*"[^>]*>(lazy)<\/p>/i,
completion after an occurrence of <p. -/
def tryPHero (s : List Char) : Option (List Char) :=
  match findSplitCI ("class=".data ++ [dq]) s with
  | none => none
  | some (pre, afterCQ) =>
    if pre.contains '>' then none
    else
      match splitAtChar dq afterCQ with
      | none => none
      | some (clsVal, afterCls) =>
        if containsSubCI "hero".data clsVal || containsSubCI "subtitle".data clsVal ||
            containsSubCI "lead".data clsVal || containsSubCI "intro".data clsVal then
          match splitAtChar '>' afterCls with
          | none => none
          | some (_, afterGt) =>
            match findSplitCI "</p>".data afterGt with
            | some (inner, _) => some inner
            | none => none
        else none

/-- Scan for the first <p occurrence at which the p-class pattern
completes. -/
def pHeroInner : Nat → List Char → Option (List Char)
  | 0, _ => none
  | _ + 1, [] => none
  | fuel + 1, c :: rest =>
    if isPrefixListCI "<p".data (c :: rest) then
      match tryPHero ((c :: rest).drop 2) with
      | some inner => some inner
      | none => pHeroInner fuel rest
    else pHeroInner fuel rest

/-- The value alternation of the color regex, in source order: a hash with
three to six (greedy) hex digits, or rgb( followed by at least one
non-closing-paren character and a closing paren, or one or more ASCII
letters.  Returns the number of characters the value consumes. -/
def tryColorValue (s : List Char) : Option Nat :=
  let hashAlt : Option Nat :=
    match s with
    | c :: rest =>
      if c == '#' then
        let hx := rest.takeWhile (fun d => (hexVal d).isSome)
        if hx.length ≥ 3 then some (1 + min hx.length 6) else none
      else none
    | [] => none
  let rgbAlt : Option Nat :=
    if isPrefixListCI "rgb(".data s then
      let inner := (s.drop 4).takeWhile (fun d => !(d == ')'))
      if inner.isEmpty then none
      else if ((s.drop 4).drop inner.length).isEmpty then none
      else some (4 + inner.length + 1)
    else none
  let letterAlt : Option Nat :=
    let letters := s.takeWhile Char.isAlpha
    if letters.isEmpty then none else some letters.length
  match hashAlt with
  | some n => some n
  | none =>
    match rgbAlt with
    | some n => some n
    | none => letterAlt

/-- Completion of the color regex after a property-name prefix: optional
whitespace, a colon, optional whitespace, then a value.  Returns the
number of characters consumed after the property name. -/
def tryColorAfterProp (rest : List Char) : Option Nat :=
  let ws1 := rest.takeWhile jsWs
  match rest.drop ws1.length with
  | c :: rest3 =>
    if c == ':' then
      let ws2 := rest3.takeWhile jsWs
      match tryColorValue (rest3.drop ws2.length) with
      | some vlen => some (ws1.length + 1 + ws2.length + vlen)
      | none => none
    else none
  | [] => none

/-- Match of /(?:color|background|background-color)\s*:\s*(value)/i at the
current position, trying the property alternatives in source order.
Returns the total match length. -/
def tryColorAt (s : List Char) : Option Nat :=
  let tryProp : List Char → Option Nat := fun p =>
    if isPrefixListCI p s then (tryColorAfterProp (s.drop p.length)).map (p.length + ·)
    else none
  match tryProp "color".data with
  | some n => some n
  | none =>
    match tryProp "background".data with
    | some n => some n
    | none => tryProp "background-color".data

/-- Global scan collecting the full texts matched by the color regex. -/
def colorScanF : Nat → List Char → List (List Char)
  | 0, _ => []
  | _ + 1, [] => []
  | fuel + 1, c :: rest =>
    match tryColorAt (c :: rest) with
    | some len => (c :: rest).take len :: colorScanF fuel ((c :: rest).drop len)
    | none => colorScanF fuel rest

/-- The mapped color values of the server extractor (line 524): each full
match split at colons, the piece after the first colon taken and trimmed;
missing or empty pieces are filtered out (filter Boolean). -/
def serverColorValues (html : List Char) : List String :=
  ((colorScanF (html.length + 1) html).map (fun m =>
    match (splitOnChar ':' m).drop 1 with
    | v :: _ => String.mk (jsTrim v)
    | [] => "")).filter (fun s => s ≠ "")

/-- The extracted color list: deduplicated in first-seen order, capped at
five entries. -/
def serverColors (html : List Char) : List String :=
  (jsDedup (serverColorValues html)).take 5

/-- Match of the font-family regex at the current position (the property
name, optional whitespace, a colon, optional whitespace, an optional
quote, then a nonempty capture of characters that are not quotes,
semicolons or commas); returns the total match length. -/
def tryFontAt (s : List Char) : Option Nat :=
  if isPrefixListCI "font-family".data s then
    let rest := s.drop 11
    let ws1 := rest.takeWhile jsWs
    match rest.drop ws1.length with
    | c :: rest3 =>
      if c == ':' then
        let ws2 := rest3.takeWhile jsWs
        let rest4 := rest3.drop ws2.length
        let qlen := match rest4 with
          | q :: _ => if isQuote q then 1 else 0
          | [] => 0
        let cap := (rest4.drop qlen).takeWhile
          (fun d => !(isQuote d || d == ';' || d == ','))
        if cap.isEmpty then none
        else some (11 + ws1.length + 1 + ws2.length + qlen + cap.length)
      else none
    | [] => none
  else none

/-- Global scan collecting the full texts matched by the font-family
regex. -/
def fontScanF : Nat → List Char → List (List Char)
  | 0, _ => []
  | _ + 1, [] => []
  | fuel + 1, c :: rest =>
    match tryFontAt (c :: rest) with
    | some len => (c :: rest).take len :: fontScanF fuel ((c :: rest).drop len)
    | none => fontScanF fuel rest

/-- Global removal of both quote characters. -/
def removeQuotes (l : List Char) : List Char := l.filter (fun c => !(isQuote c))

/-- The mapped font declaration values of the server extractor (line
528): each full match split at colons, the piece after the first colon
taken, trimmed and stripped of quotes; missing or empty pieces are
filtered out. -/
def serverFontDeclValues (html : List Char) : List String :=
  ((fontScanF (html.length + 1) html).map (fun m =>
    match (splitOnChar ':' m).drop 1 with
    | v :: _ => String.mk (removeQuotes (jsTrim v))
    | [] => "")).filter (fun s => s ≠ "")

/-- Percent-decoding of decodeURIComponent, restricted to single-byte
escapes; a malformed escape is kept literally (the real builtin throws a
URIError there, and decodes multi-byte UTF-8 sequences; neither case is
exercised by the claims under verification). -/
def decodeURIComponentF : Nat → List Char → List Char
  | 0, l => l
  | _ + 1, [] => []
  | fuel + 1, c :: rest =>
    if c == '%' then
      match rest with
      | a :: b :: r2 =>
        match hexVal a, hexVal b with
        | some x, some y => Char.ofNat (16 * x + y) :: decodeURIComponentF fuel r2
        | _, _ => c :: decodeURIComponentF fuel rest
      | _ => c :: decodeURIComponentF fuel rest
    else c :: decodeURIComponentF fuel rest

/-- decodeURIComponent on a character list. -/
def decodeURIComponentL (l : List Char) : List Char :=
  decodeURIComponentF (l.length + 1) l

/-- All nonempty family= captures inside the non-quote window after a
fonts.googleapis.com/css occurrence (each capture runs to the next
ampersand or the window end). -/
def familyCaptures : Nat → List Char → List (List Char)
  | 0, _ => []
  | _ + 1, [] => []
  | fuel + 1, c :: rest =>
    if isPrefixListCI "family=".data (c :: rest) then
      let cap := ((c :: rest).drop 7).takeWhile (fun d => !(d == '&'))
      let tailCaps := familyCaptures fuel rest
      if cap.isEmpty then tailCaps else cap :: tailCaps
    else familyCaptures fuel rest

/-- First match of the Google Fonts link regex: from an occurrence of the
host/path literal fonts.googleapis.com/css, the window is the maximal
quote-free span; at least one window character must precede family=, and
the greedy quote-free segment before it makes the regex commit to the
last family= occurrence in the window with a nonempty capture (the
capture itself stops at a quote or an ampersand). -/
def googleFontsCapture : Nat → List Char → Option (List Char)
  | 0, _ => none
  | _ + 1, [] => none
  | fuel + 1, c :: rest =>
    if isPrefixListCI "fonts.googleapis.com/css".data (c :: rest) then
      let win := ((c :: rest).drop 24).takeWhile (fun d => !(isQuote d))
      match win with
      | [] => googleFontsCapture fuel rest
      | _ :: winTail =>
        match (familyCaptures (winTail.length + 1) winTail).getLast? with
        | some cap => some cap
        | none => googleFontsCapture fuel rest
    else googleFontsCapture fuel rest

/-- The Google-Fonts family names of the server extractor (lines 531-535):
the decoded family= capture split on pipes, each entry truncated at its
first colon (stripping the :weight suffix); empty when the link regex does
not match. -/
def serverGoogleFamilies (html : List Char) : List String :=
  match googleFontsCapture (html.length + 1) html with
  | none => []
  | some cap =>
    (splitOnChar '|' (decodeURIComponentL cap)).map (fun f =>
      match splitOnChar ':' f with
      | p :: _ => String.mk p
      | [] => "")

/-- The final font list of the server extractor (lines 527-535, 550): the
deduplicated font-family declaration values capped at three, then the
Google families appended, deduplicated again and capped at three. -/
def serverFontsList (html : List Char) : List String :=
  let fonts0 := (jsDedup (serverFontDeclValues html)).take 3
  (jsDedup (fonts0 ++ serverGoogleFamilies html)).take 3

/-- Global replace of every occurrence of a literal entity. -/
def entityReplace (pat repl : String) (l : List Char) : List Char :=
  jsReplaceAllF pat.data repl.data (l.length + 1) l

/-- Body text of the netlify suggest extractor (lines 37-40): remove
script and style blocks, strip tags to spaces, collapse whitespace, trim,
cap at 800 characters (no entity decoding in this version). -/
def cleanTextSuggest (html : List Char) : List Char :=
  let t := removeElemBlocks "script" html
  let t := removeElemBlocks "style" t
  let t := stripTags " ".data t
  (jsTrim (collapseWs t)).take 800

/-- Body text of the netlify audit extractor (lines 149-152): script and
style removal, tags to spaces, nbsp and amp entity decoding, whitespace
collapse, trim, cap at 1500 characters. -/
def cleanTextNetlifyAudit (html : List Char) : List Char :=
  let t := removeElemBlocks "script" html
  let t := removeElemBlocks "style" t
  let t := stripTags " ".data t
  let t := entityReplace "&nbsp;" " " t
  let t := entityReplace "&amp;" "&" t
  (jsTrim (collapseWs t)).take 1500

/-- Body text of the server extractor (lines 538-542): script and style
removal, tags to spaces, sequential nbsp/amp/lt/gt/quot entity decoding,
whitespace collapse, trim, cap at 1500 characters. -/
def cleanTextServer (html : List Char) : List Char :=
  let t := removeElemBlocks "script" html
  let t := removeElemBlocks "style" t
  let t := stripTags " ".data t
  let t := entityReplace "&nbsp;" " " t
  let t := entityReplace "&amp;" "&" t
  let t := entityReplace "&lt;" "<" t
  let t := entityReplace "&gt;" ">" t
  let t := entityReplace "&quot;" "\"" t
  (jsTrim (collapseWs t)).take 1500

/-- Output record of the netlify suggest extractor (lines 31-43). -/
structure StructuredContentSuggest where
  h1 : String
  text : String
deriving DecidableEq

/-- extractStructuredContent of the netlify suggest function (lines
31-43): null or empty input yields the all-empty record; the h1 field is
not length-capped; the text field is capped at 800. -/
def extractStructuredContentSuggest : Option String → StructuredContentSuggest
  | none => ⟨"", ""⟩
  | some h =>
    if h.data.isEmpty then ⟨"", ""⟩
    else
      let d := h.data
      let h1 :=
        match matchTagInner "h1" d with
        | some inner => String.mk (jsTrim (stripTags [] inner))
        | none => ""
      ⟨h1, String.mk (cleanTextSuggest d)⟩

/-- Output record of the netlify audit extractor (lines 133-155). -/
structure StructuredContentNetlifyAudit where
  metaTitle : String
  metaDescription : String
  h1 : String
  subheadline : String
  text : String
deriving DecidableEq

/-- extractStructuredContent of the netlify audit function (lines
133-155): null or empty input yields the all-empty record; h1 is capped at
200 and subheadline at 300, but metaTitle and metaDescription are not
capped; text is capped at 1500. -/
def extractStructuredContentNetlifyAudit : Option String → StructuredContentNetlifyAudit
  | none => ⟨"", "", "", "", ""⟩
  | some h =>
    if h.data.isEmpty then ⟨"", "", "", "", ""⟩
    else
      let d := h.data
      let metaTitle :=
        match matchTagInner "title" d with
        | some inner => String.mk (jsTrim inner)
        | none => ""
      let metaDescription :=
        match metaDescCapture d with
        | some cap => String.mk (jsTrim cap)
        | none => ""
      let h1 :=
        match matchTagInner "h1" d with
        | some inner => jsTrim (stripTags [] inner)
        | none => []
      let sub :=
        match matchTagInner "h2" d with
        | some inner => jsTrim (stripTags [] inner)
        | none => []
      ⟨metaTitle, metaDescription, String.mk (h1.take 200), String.mk (sub.take 300),
        String.mk (cleanTextNetlifyAudit d)⟩

/-- Output record of the server extractor (lines 498-553). -/
structure StructuredContentServer where
  metaTitle : String
  metaDescription : String
  h1 : String
  subheadline : String
  colors : String
  fonts : String
  text : String
deriving DecidableEq

/-- extractStructuredContent of the server (lines 498-553): every capped
field is truncated at the return site (title 200, description 300, h1 200,
subheadline 300, text 1500 inside the pipeline); colors and fonts are
comma-joined with a Could-not-detect sentinel when empty.  There is no
null guard in this version: the callers pass html-or-empty-string, and a
null argument would throw (see the Option wrapper below). -/
def extractStructuredContentServer (h : String) : StructuredContentServer :=
  let d := h.data
  let metaTitle :=
    match matchTagInner "title" d with
    | some i => jsTrim i
    | none => []
  let metaDescription :=
    match metaDescCapture d with
    | some c => jsTrim c
    | none => []
  let h1 :=
    match matchTagInner "h1" d with
    | some i => jsTrim (stripTags [] i)
    | none => []
  let sub0 :=
    match matchTagInner "h2" d with
    | some i => jsTrim (stripTags [] i)
    | none => []
  let sub :=
    if sub0.isEmpty then
      match pHeroInner (d.length + 1) d with
      | some i => jsTrim (stripTags [] i)
      | none => []
    else sub0
  { metaTitle := String.mk (metaTitle.take 200)
    metaDescription := String.mk (metaDescription.take 300)
    h1 := String.mk (h1.take 200)
    subheadline := String.mk (sub.take 300)
    colors := jsOrS (String.intercalate ", " (serverColors d)) "Could not detect"
    fonts := jsOrS (String.intercalate ", " (serverFontsList d)) "Could not detect"
    text := String.mk (cleanTextServer d) }

/-- The server extractor applied to a nullable argument: html.match on a
null receiver throws a TypeError, modeled as Except.error. -/
def extractStructuredContentServerOpt : Option String → Except Unit StructuredContentServer
  | none => Except.error ()
  | some h => Except.ok (extractStructuredContentServer h)

/-! ## Inference data model

The LLM-backed stage functions (extractMessaging, extractVisuals,
analyzeFirstImpressions, the inline comparison call, generateTakeaways)
build a prompt, call the model and parse the reply.  For the orchestration
claims the stages are modeled at the level of their results: an oracle
maps each brand name to the stage outcome (null for a reply with no
parseable JSON).  Parsed objects are modeled with all their expected
fields present. -/

/-- Result of a messaging extraction stage. -/
structure Messaging where
  positioning : String
  voiceAdjectives : List String
  voiceSummary : String
deriving DecidableEq

/-- Result of a visual-identity extraction stage (the server stage never
yields null: a missing screenshot short-circuits to a Could-not-capture
record and a parse failure falls through to an Unknown record). -/
structure VisualInference where
  colors : String
  typography : String
  visualStyle : String
deriving DecidableEq

/-- Result of a first-impressions stage. -/
structure FirstImpression where
  firstImpression : String
  clarity : String
  appeal : String
deriving DecidableEq

/-- One overlap entry of a comparison result. -/
structure Overlap where
  category : String
  overlapPattern : String
  who : List String
deriving DecidableEq

/-- Result of the comparison call. -/
structure Comparison where
  score : Int
  overlaps : List Overlap
  standouts : List String
  verdict : String
deriving DecidableEq

/-- Result of the takeaway stage. -/
structure Takeaways where
  keep : List String
  fix : List String
  explore : List String
  watch : List String
deriving DecidableEq

/-- The merged inferred profile of a brand, spreading a possibly-null
messaging result and a visuals result into one object
({...(messaging || {}), ...(visuals || {})}); absent fields are modeled as
none. -/
structure Inferred where
  positioning : Option String
  voiceAdjectives : Option (List String)
  voiceSummary : Option String
  colors : Option String
  typography : Option String
  visualStyle : Option String
deriving DecidableEq

/-- Merge of a messaging result and a visuals result in the server audit
handler (lines 882 and 912). -/
def mergeInferredServer (m : Option Messaging) (v : VisualInference) : Inferred :=
  { positioning := m.map Messaging.positioning
    voiceAdjectives := m.map Messaging.voiceAdjectives
    voiceSummary := m.map Messaging.voiceSummary
    colors := some v.colors
    typography := some v.typography
    visualStyle := some v.visualStyle }

/-- One row of the displayed chart; a none value models a JavaScript
undefined entry (serialized as null inside a JSON array). -/
structure ChartRow where
  category : String
  values : List (Option String)
deriving DecidableEq

/-- The displayed chart. -/
structure Chart where
  columns : List String
  rows : List ChartRow
deriving DecidableEq

/-- formatVoice of the server audit handler (lines 982-987): em-dash-join
the adjectives and the summary, with an em-dash placeholder when both are
missing. -/
def formatVoiceServer (inf : Option Inferred) : String :=
  match inf with
  | none => "—"
  | some i =>
    let adjs :=
      match i.voiceAdjectives with
      | some l => String.intercalate ", " l
      | none => ""
    let summary := i.voiceSummary.getD ""
    if adjs ≠ "" then adjs ++ (if summary ≠ "" then " — " ++ summary else "")
    else if summary ≠ "" then summary
    else "—"

/-- The leading or trailing dot-separator stripping replace (anchored
regex alternation, global) applied to a visual-style chart cell. -/
def trimDotEdges (l : List Char) : List Char :=
  let l1 := if isPrefixList " · ".data l then l.drop 3 else l
  if isPrefixList " · ".data.reverse l1.reverse then (l1.reverse.drop 3).reverse else l1

/-- The Visual Style cell of the server chart (lines 1004-1005). -/
def visualCellServer (i : Inferred) : String :=
  String.mk (trimDotEdges
    ((i.colors.getD "") ++ " · " ++ (i.typography.getD "") ++ " · " ++ (i.visualStyle.getD "")).data)

/-- chartData of the server audit handler (lines 990-1009): a Category
column followed by the focal brand and each competitor, and the three rows
Positioning, Voice and Visual Style. -/
def chartDataServer (companyName : String) (companyInferred : Inferred)
    (results : List (String × Inferred)) : Chart :=
  { columns := "Category" :: companyName :: results.map Prod.fst
    rows := [
      ⟨"Positioning", companyInferred.positioning :: results.map (fun r => r.2.positioning)⟩,
      ⟨"Voice", some (formatVoiceServer (some companyInferred)) ::
        results.map (fun r => some (formatVoiceServer (some r.2)))⟩,
      ⟨"Visual Style", some (visualCellServer companyInferred) ::
        results.map (fun r => some (visualCellServer r.2))⟩] }

/-- formatVoiceFull of the netlify audit handler (lines 354-358), applied
directly to a possibly-null messaging result. -/
def formatVoiceFullNetlify (m : Option Messaging) : String :=
  let adjs :=
    match m with
    | some mm => String.intercalate ", " mm.voiceAdjectives
    | none => ""
  let summary :=
    match m with
    | some mm => mm.voiceSummary
    | none => ""
  if adjs ≠ "" then adjs ++ (if summary ≠ "" then " — " ++ summary else "")
  else if summary ≠ "" then summary
  else "—"

/-- chartData of the netlify audit handler (lines 360-366): the same
columns, but only the two rows Positioning and Voice (there is no visual
stage in this variant). -/
def chartDataNetlify (companyName : String) (m : Option Messaging)
    (results : List (String × Option Messaging)) : Chart :=
  { columns := "Category" :: companyName :: results.map Prod.fst
    rows := [
      ⟨"Positioning", some (jsOrS (m.elim "" Messaging.positioning) "—") ::
        results.map (fun r => some (jsOrS (r.2.elim "" Messaging.positioning) "—"))⟩,
      ⟨"Voice", some (formatVoiceFullNetlify m) ::
        results.map (fun r => some (formatVoiceFullNetlify r.2))⟩] }

/-- Stage-level oracle for one audit run: the outcome each LLM-backed
stage would produce for a given brand name (null models a reply without
parseable JSON). -/
structure StageOracle where
  messaging : String → Option Messaging
  visuals : String → VisualInference
  firstImpressions : String → Option FirstImpression
  comparison : Option Comparison
  takeaways : Option Takeaways

/-- One LLM-backed stage invocation, recorded in program order. -/
inductive CallEvent where
  | messagingCall (brand : String)
  | visualsCall (brand : String)
  | firstImpressionsCall (brand : String)
  | comparatorCall
  | takeawayCall
deriving DecidableEq

/-- The assembled audit report (the response fields the claims concern;
the name-keyed screenshot and first-impression maps of the response are
not modeled).  A none takeaways field models the empty-object fallback
takeaways-or-empty. -/
structure AuditReport where
  score : Int
  verdict : String
  overlaps : List Overlap
  standouts : List String
  takeaways : Option Takeaways
  chart : Chart
deriving DecidableEq

/-- Response of an audit handler. -/
inductive AuditResponse where
  | err (status : Nat) (msg : String)
  | ok (report : AuditReport)
deriving DecidableEq

/-- Whether a response is a success (res.json with no error status). -/
def isOkResponse : AuditResponse → Bool
  | AuditResponse.ok _ => true
  | AuditResponse.err _ _ => false

/-- The score of a success response. -/
def responseScore : AuditResponse → Option Int
  | AuditResponse.ok r => some r.score
  | AuditResponse.err _ _ => none

/-- The chart row categories of a success response. -/
def responseChartCats : AuditResponse → List String
  | AuditResponse.ok r => r.chart.rows.map ChartRow.category
  | AuditResponse.err _ _ => []

/-- The audit orchestrator of the server (app.post /api/audit, lines
831-1055), modeled from the input-validation gate onward at stage-result
level: fetches and screenshots carry no LLM calls and are omitted; the
focal company messaging, visuals and first-impressions stages run first;
a null focal messaging aborts with a 500 before any competitor analysis
(line 884); then each competitor runs messaging, visuals and
first-impressions; then the comparison call, whose null result aborts with
a 500 (line 977); then the takeaway call; finally the report is
assembled.  Returns the stage invocations in order together with the
response. -/
def serverAuditHandler (companyUrl companyName : String)
    (competitors : List (String × String)) (o : StageOracle) :
    List CallEvent × AuditResponse :=
  if companyUrl = "" ∨ companyName = "" ∨ competitors = [] then
    ([], AuditResponse.err 400 "Missing required fields")
  else
    let companyEvents := [CallEvent.messagingCall companyName,
      CallEvent.visualsCall companyName, CallEvent.firstImpressionsCall companyName]
    match o.messaging companyName with
    | none => (companyEvents, AuditResponse.err 500 "Could not analyze your website")
    | some m =>
      let companyInferred := mergeInferredServer (some m) (o.visuals companyName)
      let compEvents := competitors.flatMap (fun c => [CallEvent.messagingCall c.1,
        CallEvent.visualsCall c.1, CallEvent.firstImpressionsCall c.1])
      let results := competitors.map (fun c =>
        (c.1, mergeInferredServer (o.messaging c.1) (o.visuals c.1)))
      match o.comparison with
      | none =>
        (companyEvents ++ compEvents ++ [CallEvent.comparatorCall],
          AuditResponse.err 500 "Could not compare brands")
      | some comp =>
        (companyEvents ++ compEvents ++ [CallEvent.comparatorCall, CallEvent.takeawayCall],
          AuditResponse.ok
            { score := comp.score
              verdict := comp.verdict
              overlaps := comp.overlaps
              standouts := comp.standouts
              takeaways := o.takeaways
              chart := chartDataServer companyName companyInferred results })

/-- JavaScript truthiness-based x || 50 on a nullable score (zero is
falsy). -/
def jsOrScore (x : Option Int) : Int :=
  match x with
  | none => 50
  | some v => if v = 0 then 50 else v

/-- The audit orchestrator of the netlify audit function (lines 258-388):
no visual stage exists; the focal messaging result is never null-checked,
the comparison result is never null-checked, and the handler always
assembles a 200 report (with score comparison-or-50 and empty-object
fallbacks) when no stage throws. -/
def netlifyAuditHandler (companyUrl companyName : String)
    (competitors : List (String × String)) (o : StageOracle) :
    List CallEvent × AuditResponse :=
  if companyUrl = "" ∨ companyName = "" ∨ competitors = [] then
    ([], AuditResponse.err 400 "Missing required fields")
  else
    let m := o.messaging companyName
    let companyEvents := [CallEvent.messagingCall companyName,
      CallEvent.firstImpressionsCall companyName]
    let compEvents := competitors.flatMap (fun c =>
      [CallEvent.messagingCall c.1, CallEvent.firstImpressionsCall c.1])
    let results := competitors.map (fun c => (c.1, o.messaging c.1))
    let comp := o.comparison
    (companyEvents ++ compEvents ++ [CallEvent.comparatorCall, CallEvent.takeawayCall],
      AuditResponse.ok
        { score := jsOrScore (comp.map Comparison.score)
          verdict := comp.elim "" Comparison.verdict
          overlaps := comp.elim [] Comparison.overlaps
          standouts := comp.elim [] Comparison.standouts
          takeaways := o.takeaways
          chart := chartDataNetlify companyName m results })

/-! ## Concrete inputs used by witnesses and counterexamples -/

/-- A stage oracle whose every inference yields null (every reply lacks
parseable JSON). -/
def oracleAllNone : StageOracle :=
  { messaging := fun _ => none
    visuals := fun _ => ⟨"Unknown", "Unknown", "Unknown"⟩
    firstImpressions := fun _ => none
    comparison := none
    takeaways := none }

/-- A concrete successful messaging result. -/
def msgAcme : Messaging :=
  ⟨"Design tools for small teams", ["bold", "friendly", "direct"], "Confident and plain."⟩

/-- A concrete successful comparison result. -/
def cmpAcme : Comparison :=
  ⟨72, [⟨"voice", "friendly startup tone", ["Acme", "Beta"]⟩], ["Plain pricing"], "Distinct enough."⟩

/-- A stage oracle whose messaging and first-impressions stages succeed
for every brand and whose comparison and takeaways succeed. -/
def oracleAllSome : StageOracle :=
  { messaging := fun _ => some msgAcme
    visuals := fun _ => ⟨"navy, white", "grotesque sans", "minimal"⟩
    firstImpressions := fun _ => some ⟨"Looks credible.", "Clear.", "Yes."⟩
    comparison := some cmpAcme
    takeaways := some ⟨["keep tone"], ["fix headline"], ["own niche"], ["watch Beta"]⟩ }

/-- A stage oracle whose messaging succeeds but whose comparison yields
null. -/
def oracleNoComparison : StageOracle :=
  { messaging := fun _ => some msgAcme
    visuals := fun _ => ⟨"navy, white", "grotesque sans", "minimal"⟩
    firstImpressions := fun _ => some ⟨"Looks credible.", "Clear.", "Yes."⟩
    comparison := none
    takeaways := none }

/-- Wrap a string in curly braces. -/
def mkBraced (s : String) : String :=
  String.mk (lbrace :: s.data ++ [rbrace])

/-- An LLM reply whose brace span is not valid JSON. -/
def replyOops : String := "Sorry! " ++ mkBraced "oops"

/-- Another reply whose brace span is not valid JSON. -/
def replyNope : String := "Reply: " ++ mkBraced "nope"

/-- The brace span of replyNope. -/
def spanNope : String := mkBraced "nope"

/-- A reply whose brace span is an object with an unquoted key (not valid
JSON). -/
def replyColonObj : String := "Answer: " ++ mkBraced "competitors: none"

/-- The brace span of replyColonObj. -/
def spanColonObj : String := mkBraced "competitors: none"

/-- A reply whose brace span is valid JSON. -/
def replyGoodJson : String := "Sure: " ++ mkBraced "\"competitors\": []"

/-- The brace span of replyGoodJson. -/
def spanGoodJson : String := mkBraced "\"competitors\": []"

/-- HTML with a Google Fonts stylesheet link carrying weighted families
and no font-family declaration. -/
def gFontsHtml : String :=
  "<link href=\"https://fonts.googleapis.com/css?family=Inter:400|Roboto:700\" rel=\"stylesheet\">"

/-- HTML with three distinct font-family declarations followed by the same
Google Fonts link. -/
def cexFontsHtml : String :=
  "<div style=\"font-family: Alpha\"></div><div style=\"font-family: Beta\"></div><div style=\"font-family: Gamma\"></div><link href=\"https://fonts.googleapis.com/css?family=Inter:400|Roboto:700\">"

/-- HTML whose title text is 201 characters long. -/
def longTitleHtml : String :=
  String.mk ("<title>".data ++ List.replicate 201 'a' ++ "</title>".data)

/-! ## Helper lemmas -/

set_option maxRecDepth 100000

/-- A string built from a take-truncated character list is no longer than
the truncation bound. -/
theorem strMk_take_len_le (l : List Char) (n : Nat) : (String.mk (l.take n)).length ≤ n := by
  show (l.take n).length ≤ n
  simp [List.length_take]

/-- Membership in the Set-based deduplication: an element appears in the
result exactly when it appears in the input and is not already seen. -/
theorem mem_jsDedupAux (l : List String) :
    ∀ (seen : List String) (a : String), a ∈ jsDedupAux seen l ↔ a ∈ l ∧ a ∉ seen := by
  induction l with
  | nil => intro seen a; simp [jsDedupAux]
  | cons x xs ih =>
    intro seen a
    by_cases h : x ∈ seen
    · rw [jsDedupAux, if_pos h, ih]
      constructor
      · rintro ⟨hx, hs⟩
        exact ⟨List.mem_cons_of_mem _ hx, hs⟩
      · rintro ⟨hx, hs⟩
        rcases List.mem_cons.mp hx with rfl | hx2
        · exact absurd h hs
        · exact ⟨hx2, hs⟩
    · rw [jsDedupAux, if_neg h]
      rw [List.mem_cons, ih]
      constructor
      · rintro (rfl | ⟨hx, hs⟩)
        · exact ⟨List.mem_cons_self _ _, h⟩
        · refine ⟨List.mem_cons_of_mem _ hx, fun hc => hs (List.mem_cons_of_mem _ hc)⟩
      · rintro ⟨hx, hs⟩
        rcases List.mem_cons.mp hx with rfl | hx2
        · exact Or.inl rfl
        · by_cases hax : a = x
          · exact Or.inl hax
          · refine Or.inr ⟨hx2, fun hc => ?_⟩
            rcases List.mem_cons.mp hc with h1 | h2
            · exact hax h1
            · exact hs h2

/-- Membership is preserved by deduplication. -/
theorem mem_jsDedup (l : List String) (a : String) : a ∈ jsDedup l ↔ a ∈ l := by
  rw [jsDedup, mem_jsDedupAux]
  simp

/-- Deduplication does not lengthen a list. -/
theorem length_jsDedupAux_le (l : List String) :
    ∀ seen : List String, (jsDedupAux seen l).length ≤ l.length := by
  induction l with
  | nil => intro seen; simp [jsDedupAux]
  | cons x xs ih =>
    intro seen
    by_cases h : x ∈ seen
    · rw [jsDedupAux, if_pos h]
      exact le_trans (ih seen) (Nat.le_succ _)
    · rw [jsDedupAux, if_neg h]
      simpa using Nat.succ_le_succ (ih (x :: seen))

/-- Deduplication does not lengthen a list. -/
theorem length_jsDedup_le (l : List String) : (jsDedup l).length ≤ l.length :=
  length_jsDedupAux_le l []

/-! ## Claims -/

/-- C7: for every input string, URL normalization trims surrounding
whitespace and, when the trimmed result lacks an http:// or https://
prefix, prepends https:// (otherwise it returns the trimmed string
unchanged); normalizing example.com yields https://example.com; and both
fetchers issue their first request at exactly the normalized URL. -/
theorem normalizeUrl_spec :
    (∀ url : String,
      (strStartsWith "http://" (jsTrimS url) = false →
        strStartsWith "https://" (jsTrimS url) = false →
        normalizeUrl url = "https://" ++ jsTrimS url) ∧
      (strStartsWith "http://" (jsTrimS url) = true ∨
        strStartsWith "https://" (jsTrimS url) = true →
        normalizeUrl url = jsTrimS url) ∧
      (∀ oracle : String → Option String,
        (fetchWebsiteNetlify oracle url).1.head? = some (normalizeUrl url) ∧
        (fetchWebsiteServer oracle url).1.head? = some (normalizeUrl url))) ∧
    normalizeUrl "example.com" = "https://example.com" := by
  refine ⟨fun url => ⟨?_, ?_, ?_⟩, by decide⟩
  · intro h1 h2
    simp [normalizeUrl, h1, h2]
  · intro h
    rcases h with h | h <;> simp [normalizeUrl, h]
  · intro oracle
    constructor
    · rw [fetchWebsiteNetlify]
      cases oracle (normalizeUrl url) <;> simp
    · rw [fetchWebsiteServer]
      cases oracle (normalizeUrl url) <;> simp
      split <;> simp

/-- Witness for C7 at the concrete input example.com with a failing
transport. -/
theorem normalizeUrl_spec_witness :
    normalizeUrl "example.com" = "https://" ++ jsTrimS "example.com" ∧
    (fetchWebsiteNetlify (fun _ => none) "example.com").1.head? =
      some (normalizeUrl "example.com") :=
  ⟨(normalizeUrl_spec.1 "example.com").1 (by decide) (by decide),
    ((normalizeUrl_spec.1 "example.com").2.2 (fun _ => none)).1⟩

/-- C8 (amended): neither fetcher ever throws; on a transport failure of
the primary request, the netlify fetcher always retries exactly once at
the www variant and resolves to that result (null when it also fails),
while the server fetcher does the same only when the normalized URL does
not already contain ://www. — otherwise it resolves to null with no
retry. -/
theorem fetchWebsite_fallback_spec :
    ∀ (oracle : String → Option String) (url : String),
      (∀ t, oracle (normalizeUrl url) = some t →
        fetchWebsiteNetlify oracle url = ([normalizeUrl url], some t) ∧
        fetchWebsiteServer oracle url = ([normalizeUrl url], some t)) ∧
      (oracle (normalizeUrl url) = none →
        fetchWebsiteNetlify oracle url =
          ([normalizeUrl url, wwwVariant (normalizeUrl url)],
            oracle (wwwVariant (normalizeUrl url)))) ∧
      (oracle (normalizeUrl url) = none →
        containsSub "://www.".data (normalizeUrl url).data = false →
        fetchWebsiteServer oracle url =
          ([normalizeUrl url, wwwVariant (normalizeUrl url)],
            oracle (wwwVariant (normalizeUrl url)))) ∧
      (oracle (normalizeUrl url) = none →
        containsSub "://www.".data (normalizeUrl url).data = true →
        fetchWebsiteServer oracle url = ([normalizeUrl url], none)) := by
  intro oracle url
  refine ⟨?_, ?_, ?_, ?_⟩
  · intro t ht
    refine ⟨?_, ?_⟩
    · rw [fetchWebsiteNetlify, ht]
    · rw [fetchWebsiteServer, ht]
  · intro h
    rw [fetchWebsiteNetlify, h]
  · intro h hc
    rw [fetchWebsiteServer, h]
    simp [hc]
  · intro h hc
    rw [fetchWebsiteServer, h]
    simp [hc]

/-- Witness for C8: with a transport that always fails, fetching
example.com requests the normalized URL and then its www variant, and
resolves to null. -/
theorem fetchWebsite_fallback_spec_witness :
    fetchWebsiteNetlify (fun _ => none) "example.com" =
      (["https://example.com", "https://www.example.com"], none) := by
  have h := (fetchWebsite_fallback_spec (fun _ => none) "example.com").2.1 rfl
  rw [h]
  decide

/-- Counterexample for C8 as stated: for a URL already carrying a www
subdomain, the server fetcher performs no retry at all on primary
failure — a single request is made (not two) and the fetcher resolves to
null. -/
theorem fetchWebsiteServer_www_no_retry :
    (fetchWebsiteServer (fun _ => none) "www.example.com").1 = ["https://www.example.com"] ∧
    (fetchWebsiteServer (fun _ => none) "www.example.com").1.length ≠ 2 ∧
    (fetchWebsiteServer (fun _ => none) "www.example.com").2 = none := by
  decide

/-- C1 (amended, server side): in the server audit orchestrator, whenever
the focal company messaging stage yields null, the handler returns the
fatal 500 error and the trace of stage invocations contains neither a
Comparator call nor a Takeaway call. -/
theorem serverAudit_nullFocalMessaging_fatal :
    ∀ (companyUrl companyName : String) (competitors : List (String × String))
      (o : StageOracle),
      companyUrl ≠ "" → companyName ≠ "" → competitors ≠ [] →
      o.messaging companyName = none →
      (serverAuditHandler companyUrl companyName competitors o).2 =
        AuditResponse.err 500 "Could not analyze your website" ∧
      CallEvent.comparatorCall ∉ (serverAuditHandler companyUrl companyName competitors o).1 ∧
      CallEvent.takeawayCall ∉ (serverAuditHandler companyUrl companyName competitors o).1 := by
  intro cu cn comps o hu hn hc hm
  simp [serverAuditHandler, hu, hn, hc, hm]

/-- Witness for C1 on a concrete audit request whose messaging oracle
yields null. -/
theorem serverAudit_nullFocalMessaging_fatal_witness :
    (serverAuditHandler "acme.com" "Acme" [("Beta", "beta.com")] oracleAllNone).2 =
      AuditResponse.err 500 "Could not analyze your website" ∧
    CallEvent.comparatorCall ∉
      (serverAuditHandler "acme.com" "Acme" [("Beta", "beta.com")] oracleAllNone).1 ∧
    CallEvent.takeawayCall ∉
      (serverAuditHandler "acme.com" "Acme" [("Beta", "beta.com")] oracleAllNone).1 :=
  serverAudit_nullFocalMessaging_fatal "acme.com" "Acme" [("Beta", "beta.com")] oracleAllNone
    (by decide) (by decide) (by decide) rfl

/-- Counterexample for C1 as stated: the netlify audit handler performs no
null check on the focal messaging result — with a messaging oracle that
yields null for every brand, the Comparator and Takeaway calls still occur
and a 200 report is returned. -/
theorem netlifyAudit_nullFocalMessaging_proceeds :
    CallEvent.comparatorCall ∈
      (netlifyAuditHandler "acme.com" "Acme" [("Beta", "beta.com")] oracleAllNone).1 ∧
    CallEvent.takeawayCall ∈
      (netlifyAuditHandler "acme.com" "Acme" [("Beta", "beta.com")] oracleAllNone).1 ∧
    isOkResponse (netlifyAuditHandler "acme.com" "Acme" [("Beta", "beta.com")] oracleAllNone).2 =
      true := by
  decide

/-- C2 (amended, server side): in the server audit orchestrator, whenever
the focal messaging stage succeeds and the Comparator stage yields null,
the handler returns the fatal 500 error and no Takeaway call occurs. -/
theorem serverAudit_nullComparison_fatal :
    ∀ (companyUrl companyName : String) (competitors : List (String × String))
      (o : StageOracle) (m : Messaging),
      companyUrl ≠ "" → companyName ≠ "" → competitors ≠ [] →
      o.messaging companyName = some m → o.comparison = none →
      (serverAuditHandler companyUrl companyName competitors o).2 =
        AuditResponse.err 500 "Could not compare brands" ∧
      CallEvent.takeawayCall ∉ (serverAuditHandler companyUrl companyName competitors o).1 := by
  intro cu cn comps o m hu hn hc hm hcomp
  simp [serverAuditHandler, hu, hn, hc, hm, hcomp]

/-- Witness for C2 on a concrete audit request whose comparison oracle
yields null. -/
theorem serverAudit_nullComparison_fatal_witness :
    (serverAuditHandler "acme.com" "Acme" [("Beta", "beta.com")] oracleNoComparison).2 =
      AuditResponse.err 500 "Could not compare brands" ∧
    CallEvent.takeawayCall ∉
      (serverAuditHandler "acme.com" "Acme" [("Beta", "beta.com")] oracleNoComparison).1 :=
  serverAudit_nullComparison_fatal "acme.com" "Acme" [("Beta", "beta.com")] oracleNoComparison
    msgAcme (by decide) (by decide) (by decide) rfl rfl

/-- Counterexample for C2 as stated: the netlify audit handler performs no
null check on the comparison result — with a null comparison it still
returns a 200 partial report whose score falls back to 50. -/
theorem netlifyAudit_nullComparison_degradedReport :
    isOkResponse
      (netlifyAuditHandler "acme.com" "Acme" [("Beta", "beta.com")] oracleNoComparison).2 =
      true ∧
    responseScore
      (netlifyAuditHandler "acme.com" "Acme" [("Beta", "beta.com")] oracleNoComparison).2 =
      some 50 := by
  decide

/-- C9 (amended, server side): every successful server audit returns a
report whose chart columns are the Category label, the focal brand and the
competitors in order, and whose rows are exactly Positioning, Voice and
Visual Style. -/
theorem serverAudit_chart_shape :
    ∀ (companyUrl companyName : String) (competitors : List (String × String))
      (o : StageOracle) (m : Messaging) (c : Comparison),
      companyUrl ≠ "" → companyName ≠ "" → competitors ≠ [] →
      o.messaging companyName = some m → o.comparison = some c →
      ∃ rep, (serverAuditHandler companyUrl companyName competitors o).2 =
          AuditResponse.ok rep ∧
        rep.chart.columns = "Category" :: companyName :: competitors.map Prod.fst ∧
        rep.chart.rows.map ChartRow.category = ["Positioning", "Voice", "Visual Style"] := by
  intro cu cn comps o m c hu hn hc hm hcomp
  simp [serverAuditHandler, hu, hn, hc, hm, hcomp, chartDataServer]

/-- Witness for C9 on a concrete successful audit. -/
theorem serverAudit_chart_shape_witness :
    responseChartCats
      (serverAuditHandler "acme.com" "Acme" [("Beta", "beta.com")] oracleAllSome).2 =
      ["Positioning", "Voice", "Visual Style"] := by
  obtain ⟨rep, h1, _h2, h3⟩ :=
    serverAudit_chart_shape "acme.com" "Acme" [("Beta", "beta.com")] oracleAllSome
      msgAcme cmpAcme (by decide) (by decide) (by decide) rfl rfl
  rw [h1, responseChartCats, h3]

/-- Counterexample for C9 as stated: a successful netlify audit returns a
chart with exactly the two rows Positioning and Voice (no Visual Style
row). -/
theorem netlifyAudit_chart_two_rows :
    isOkResponse (netlifyAuditHandler "acme.com" "Acme" [("Beta", "beta.com")] oracleAllSome).2 =
      true ∧
    responseChartCats
      (netlifyAuditHandler "acme.com" "Acme" [("Beta", "beta.com")] oracleAllSome).2 =
      ["Positioning", "Voice"] := by
  decide

/-- C3 (amended): the server stage parse loops never throw (every reply
evaluates to a success, a failed span being skipped); the netlify stage
parse loops yield null when no text block contains a brace span, but throw
out of the stage function when the first span found is not valid JSON. -/
theorem stageParse_containment :
    ∀ blocks : List ContentBlock,
      (∃ r, serverStageParse blocks = Except.ok r) ∧
      (firstJsonSpan blocks = none → netlifyStageParse blocks = Except.ok none) ∧
      (∀ sp, firstJsonSpan blocks = some sp → jsonValid sp = false →
        netlifyStageParse blocks = Except.error ()) := by
  intro blocks
  induction blocks with
  | nil =>
    refine ⟨⟨none, rfl⟩, fun _ => rfl, fun sp h => ?_⟩
    simp [firstJsonSpan] at h
  | cons b rest ih =>
    cases b with
    | other =>
      refine ⟨?_, ?_, ?_⟩
      · obtain ⟨r, hr⟩ := ih.1
        exact ⟨r, by rw [serverStageParse, hr]⟩
      · intro h
        rw [firstJsonSpan] at h
        rw [netlifyStageParse]
        exact ih.2.1 h
      · intro sp h hv
        rw [firstJsonSpan] at h
        rw [netlifyStageParse]
        exact ih.2.2 sp h hv
    | text s =>
      cases hs : jsonSpanL s.data with
      | none =>
        refine ⟨?_, ?_, ?_⟩
        · obtain ⟨r, hr⟩ := ih.1
          refine ⟨r, ?_⟩
          rw [serverStageParse, hs]
          exact hr
        · intro h
          rw [firstJsonSpan, hs] at h
          rw [netlifyStageParse, hs]
          exact ih.2.1 h
        · intro sp h hv
          rw [firstJsonSpan, hs] at h
          rw [netlifyStageParse, hs]
          exact ih.2.2 sp h hv
      | some sp0 =>
        refine ⟨?_, ?_, ?_⟩
        · cases hv : jsonValid sp0 with
          | true =>
            refine ⟨some sp0, ?_⟩
            rw [serverStageParse, hs]
            simp [hv]
          | false =>
            obtain ⟨r, hr⟩ := ih.1
            refine ⟨r, ?_⟩
            rw [serverStageParse, hs]
            simp [hv, hr]
        · intro h
          rw [firstJsonSpan, hs] at h
          exact absurd h (by simp)
        · intro sp h hv
          rw [firstJsonSpan, hs] at h
          obtain rfl : sp0 = sp := by simpa using h
          rw [netlifyStageParse, hs]
          simp [hv]

/-- Witness for C3: a reply whose single text block carries an invalid
brace span makes the netlify parse loop throw. -/
theorem stageParse_containment_witness :
    netlifyStageParse [ContentBlock.other, ContentBlock.text replyNope] = Except.error () :=
  (stageParse_containment [ContentBlock.other, ContentBlock.text replyNope]).2.2
    spanNope.data (by decide) (by decide)

/-- Counterexample for C3 as stated: the netlify messaging parse loop
(identical in the other netlify stages) throws to its caller on a reply
whose brace span is not valid JSON, instead of yielding null. -/
theorem netlifyStageParse_throws :
    netlifyStageParse [ContentBlock.text replyOops] = Except.error () := by
  rfl

/-- C10: the netlify suggest-competitors handler returns the first brace
span of the reply verbatim as the 200 response body without parsing it
(so the body can be invalid JSON, as the closing concrete conjunct
exhibits), and returns a 200 with the stringified empty competitors
object when no text block contains a span. -/
theorem suggestRespond_spec :
    (∀ (blocks : List ContentBlock) (sp : List Char),
      firstJsonSpan blocks = some sp →
      suggestHandlerRespond blocks = ⟨200, String.mk sp⟩) ∧
    (∀ blocks : List ContentBlock,
      firstJsonSpan blocks = none →
      suggestHandlerRespond blocks = ⟨200, emptyCompetitorsBody⟩) ∧
    (suggestHandlerRespond [ContentBlock.text replyColonObj] = ⟨200, spanColonObj⟩ ∧
      jsonValid spanColonObj.data = false) := by
  refine ⟨?_, ?_, by decide, by decide⟩
  · intro blocks sp h
    rw [suggestHandlerRespond, h]
  · intro blocks h
    rw [suggestHandlerRespond, h]

/-- Witness for C10: on a reply whose second block carries a valid JSON
brace span, the handler returns exactly that span as the body. -/
theorem suggestRespond_spec_witness :
    suggestHandlerRespond [ContentBlock.other, ContentBlock.text replyGoodJson] =
      ⟨200, spanGoodJson⟩ :=
  suggestRespond_spec.1 [ContentBlock.other, ContentBlock.text replyGoodJson]
    spanGoodJson.data (by decide)

/-- C4 (amended): for every HTML string, the server extractor returns
every declared capped field within its cap (title 200, description 300,
heading 200, subheading 300, body 1500) — though it throws on a null
argument; the netlify audit extractor caps its heading at 200, subheading
at 300 and body at 1500 (but not its title or description, see the
counterexample), and the netlify suggest extractor caps its body at 800
(but not its heading). -/
theorem extract_caps :
    (∀ h : String,
      (extractStructuredContentServer h).metaTitle.length ≤ 200 ∧
      (extractStructuredContentServer h).metaDescription.length ≤ 300 ∧
      (extractStructuredContentServer h).h1.length ≤ 200 ∧
      (extractStructuredContentServer h).subheadline.length ≤ 300 ∧
      (extractStructuredContentServer h).text.length ≤ 1500 ∧
      (extractStructuredContentNetlifyAudit (some h)).h1.length ≤ 200 ∧
      (extractStructuredContentNetlifyAudit (some h)).subheadline.length ≤ 300 ∧
      (extractStructuredContentNetlifyAudit (some h)).text.length ≤ 1500 ∧
      (extractStructuredContentSuggest (some h)).text.length ≤ 800) ∧
    extractStructuredContentServerOpt none = Except.error () := by
  refine ⟨fun h => ⟨?_, ?_, ?_, ?_, ?_, ?_, ?_, ?_, ?_⟩, rfl⟩
  · unfold extractStructuredContentServer
    exact strMk_take_len_le _ _
  · unfold extractStructuredContentServer
    exact strMk_take_len_le _ _
  · unfold extractStructuredContentServer
    exact strMk_take_len_le _ _
  · unfold extractStructuredContentServer
    exact strMk_take_len_le _ _
  · unfold extractStructuredContentServer cleanTextServer
    exact strMk_take_len_le _ _
  · unfold extractStructuredContentNetlifyAudit
    cases he : h.data.isEmpty <;> simp only [he, if_true, if_false]
    · exact strMk_take_len_le _ _
    · decide
  · unfold extractStructuredContentNetlifyAudit
    cases he : h.data.isEmpty <;> simp only [he, if_true, if_false]
    · exact strMk_take_len_le _ _
    · decide
  · unfold extractStructuredContentNetlifyAudit cleanTextNetlifyAudit
    cases he : h.data.isEmpty <;> simp only [he, if_true, if_false]
    · exact strMk_take_len_le _ _
    · decide
  · unfold extractStructuredContentSuggest cleanTextSuggest
    cases he : h.data.isEmpty <;> simp only [he, if_true, if_false]
    · exact strMk_take_len_le _ _
    · decide

/-- Counterexample for C4 as stated: the netlify audit extractor does not
cap its title — an HTML input with a 201-character title element yields a
metaTitle longer than the declared 200-character cap. -/
theorem netlifyAudit_metaTitle_uncapped :
    200 < (extractStructuredContentNetlifyAudit (some longTitleHtml)).metaTitle.length := by
  decide

/-- C5 (amended): both netlify extractors map null and the empty string to
the all-empty record; the server extractor instead throws on null and maps
the empty string to a record whose colors and fonts fields hold the
Could-not-detect sentinel (all other fields empty). -/
theorem extract_null_empty_behavior :
    extractStructuredContentNetlifyAudit none = ⟨"", "", "", "", ""⟩ ∧
    extractStructuredContentNetlifyAudit (some "") = ⟨"", "", "", "", ""⟩ ∧
    extractStructuredContentSuggest none = ⟨"", ""⟩ ∧
    extractStructuredContentSuggest (some "") = ⟨"", ""⟩ ∧
    extractStructuredContentServerOpt none = Except.error () ∧
    extractStructuredContentServer "" =
      ⟨"", "", "", "", "Could not detect", "Could not detect", ""⟩ :=
  ⟨rfl, rfl, rfl, rfl, rfl, by decide⟩

/-- Counterexample for C5 as stated: the server extractor applied to the
empty string is not the all-empty record — its colors field is the
Could-not-detect sentinel. -/
theorem serverExtract_empty_not_allEmpty :
    (extractStructuredContentServer "").colors = "Could not detect" ∧
    (extractStructuredContentServer "").colors ≠ "" := by
  decide

/-- C6 (amended): when the Google Fonts link regex captures the families
Inter and Roboto (weight suffixes stripped by the split at the colon) and
at most one distinct font-family declaration value precedes them, both
family names appear in the final font list, which always holds at most
three distinct entries; with three or more distinct declarations the
Google families are truncated away (see the counterexample). -/
theorem googleFonts_merge_spec :
    ∀ html : String,
      (jsDedup (serverFontDeclValues html.data)).length ≤ 1 →
      serverGoogleFamilies html.data = ["Inter", "Roboto"] →
      "Inter" ∈ serverFontsList html.data ∧ "Roboto" ∈ serverFontsList html.data ∧
      (serverFontsList html.data).length ≤ 3 := by
  intro html hd hg
  unfold serverFontsList
  rw [hg]
  have hd3 : (jsDedup (serverFontDeclValues html.data)).take 3 =
      jsDedup (serverFontDeclValues html.data) :=
    List.take_of_length_le (le_trans hd (by omega))
  rw [hd3]
  have hlen : (jsDedup (jsDedup (serverFontDeclValues html.data) ++ ["Inter", "Roboto"])).length ≤ 3 := by
    have h1 := length_jsDedup_le (jsDedup (serverFontDeclValues html.data) ++ ["Inter", "Roboto"])
    have h2 : (jsDedup (serverFontDeclValues html.data) ++ ["Inter", "Roboto"]).length =
        (jsDedup (serverFontDeclValues html.data)).length + 2 := by simp
    omega
  have htake : (jsDedup (jsDedup (serverFontDeclValues html.data) ++ ["Inter", "Roboto"])).take 3 =
      jsDedup (jsDedup (serverFontDeclValues html.data) ++ ["Inter", "Roboto"]) :=
    List.take_of_length_le hlen
  rw [htake]
  refine ⟨?_, ?_, hlen⟩
  · rw [mem_jsDedup]
    simp
  · rw [mem_jsDedup]
    simp

/-- Witness for C6: HTML holding only the weighted Google Fonts link
yields a font list containing Inter and Roboto. -/
theorem googleFonts_merge_spec_witness :
    "Inter" ∈ serverFontsList gFontsHtml.data ∧
    "Roboto" ∈ serverFontsList gFontsHtml.data ∧
    (serverFontsList gFontsHtml.data).length ≤ 3 :=
  googleFonts_merge_spec gFontsHtml (by decide) (by decide)

/-- Counterexample for C6 as stated: with three distinct font-family
declarations before the same Google Fonts link, the link is captured but
neither Inter nor Roboto survives the truncation to three entries. -/
theorem googleFonts_dropped_when_three_decls :
    serverGoogleFamilies cexFontsHtml.data = ["Inter", "Roboto"] ∧
    "Inter" ∉ serverFontsList cexFontsHtml.data ∧
    "Roboto" ∉ serverFontsList cexFontsHtml.data := by
  decide

end BrandAudit
